import Mathlib

/-!
Verification of the n8n-workflow-gallery server core (src/server.js).

The repository ships two near-duplicate Express server variants in one file:
a simple variant (fetch root listing, fetch every file's content eagerly) and
an explorer variant (walk root + subdirectories, build summaries lazily).
Definitions below are shallow embeddings of both variants; names follow the
source where Lean allows it, with a V1 suffix for the simple variant.
String operations are implemented over character lists so that they match
the JavaScript string primitives they embed and evaluate by reduction.
-/

/-- JS string `a || b` semantics for string-or-absent values: an absent value
or an empty string (falsy) falls through to the default. -/
def jsOr (v : Option String) (d : String) : String :=
  match v with
  | some s => if s = "" then d else s
  | none => d

/-- JS `x.createdAt || null`: an empty string collapses to null. -/
def jsOrNull (v : Option String) : Option String :=
  match v with
  | some s => if s = "" then none else some s
  | none => none

/-- JS `arr ? arr.length : 0` (an absent array counts as 0). -/
def jsCount {α : Type} (o : Option (List α)) : Nat :=
  match o with
  | some l => l.length
  | none => 0

/-- Sublist containment test used to embed JS `s.includes(pat)`. -/
def hasSubList (pat : List Char) : List Char → Bool
  | [] => pat.isEmpty
  | c :: cs => pat.isPrefixOf (c :: cs) || hasSubList pat cs

/-- JS `s.includes(pat)`: literal substring containment. -/
def strContains (s pat : String) : Bool :=
  hasSubList pat.toList s.toList

/-- JS `s.endsWith(suf)`. -/
def endsWithStr (s suf : String) : Bool :=
  suf.toList.reverse.isPrefixOf s.toList.reverse

/-- JS `s.toUpperCase()` (ASCII). -/
def toUpperStr (s : String) : String :=
  String.mk (s.toList.map Char.toUpper)

/-- JS `s.toLowerCase()` (ASCII). -/
def toLowerStr (s : String) : String :=
  String.mk (s.toList.map Char.toLower)

/-- First-occurrence replacement on character lists, the semantics of JS
`String.prototype.replace` with a string pattern. -/
def replaceFirstAux (pat rep : List Char) : List Char → List Char
  | [] => []
  | c :: cs =>
    if pat.isPrefixOf (c :: cs) then rep ++ (c :: cs).drop pat.length
    else c :: replaceFirstAux pat rep cs

/-- JS `s.replace(pat, rep)` with a string pattern (first occurrence only). -/
def replaceFirstStr (s pat rep : String) : String :=
  String.mk (replaceFirstAux pat.toList rep.toList s.toList)

/-- JS `s.replace(/^\d+[-_]/, '')`: strip one leading run of digits when it is
followed by a dash or underscore separator (the separator is stripped too). -/
def stripLeadingNum (cs : List Char) : List Char :=
  let ds := cs.takeWhile Char.isDigit
  if ds = [] then cs
  else
    match cs.drop ds.length with
    | c :: rest => if c = '-' ∨ c = '_' then rest else cs
    | [] => cs

/-- JS `s.replace(/[_-]/g, ' ')` applied character-wise. -/
def sepToSpace (c : Char) : Char :=
  if c = '_' ∨ c = '-' then ' ' else c

/-- JS `s.replace(/\s+/g, ' ')`: collapse every maximal whitespace run to a
single space. -/
def collapseWs : List Char → List Char
  | [] => []
  | [c] => if c.isWhitespace then [' '] else [c]
  | c1 :: c2 :: rest =>
    if c1.isWhitespace && c2.isWhitespace then collapseWs (c2 :: rest)
    else (if c1.isWhitespace then ' ' else c1) :: collapseWs (c2 :: rest)

/-- JS `s.trim()`. -/
def trimStr (s : String) : String :=
  String.mk (((s.toList.dropWhile Char.isWhitespace).reverse.dropWhile
    Char.isWhitespace).reverse)

/-- JS `s.split(' ')`: split at every single space, keeping empty pieces. -/
def splitOnSpace : List Char → List (List Char)
  | [] => [[]]
  | c :: cs =>
    match splitOnSpace cs with
    | [] => [[]]
    | w :: ws => if c = ' ' then [] :: w :: ws else (c :: w) :: ws

/-- JS `words.join(' ')`. -/
def joinSpace : List String → String
  | [] => ""
  | [w] => w
  | w :: ws => w ++ " " ++ joinSpace ws

/-- The fixed acronym list of the normalizer (src/server.js line 379). -/
def acronyms : List String :=
  ["HTTP", "HTTPS", "API", "URL", "JSON", "XML", "RSS", "AI", "ML", "SQL",
   "PDF", "CSV", "FTP", "SMTP", "IMAP", "OAuth", "JWT", "REST", "SOAP",
   "AWS", "GCP"]

/-- JS `word.charAt(0).toUpperCase() + word.slice(1).toLowerCase()`. -/
def capitalizeWord (w : String) : String :=
  match w.toList with
  | [] => ""
  | c :: cs => String.mk (c.toUpper :: cs.map Char.toLower)

/-- Per-token smart capitalization of the explorer variant
(src/server.js lines 380-397): acronym table, brand special cases, then
default capitalization. -/
def transformWord (word : String) : String :=
  let upperWord := toUpperStr word
  if acronyms.contains upperWord then upperWord
  else if toLowerStr word = "n8n" then "n8n"
  else if toLowerStr word = "github" then "GitHub"
  else if toLowerStr word = "gitlab" then "GitLab"
  else if toLowerStr word = "linkedin" then "LinkedIn"
  else if toLowerStr word = "youtube" then "YouTube"
  else if toLowerStr word = "facebook" then "Facebook"
  else if toLowerStr word = "instagram" then "Instagram"
  else if toLowerStr word = "whatsapp" then "WhatsApp"
  else capitalizeWord word

/-- Display-name derivation of the explorer variant (src/server.js lines
368-400): strip the .json suffix, strip a leading digit run plus separator,
turn separators into spaces, capitalize token-wise, collapse whitespace,
trim. -/
def deriveDisplayName (fileName : String) : String :=
  let s1 := replaceFirstStr fileName ".json" ""
  let s2 := String.mk (stripLeadingNum s1.toList)
  let s3 := String.mk (s2.toList.map sepToSpace)
  let s4 := joinSpace (((splitOnSpace s3.toList).map String.mk).map transformWord)
  trimStr (String.mk (collapseWs s4.toList))

/-- Repository coordinate (src/server.js lines 235-236). -/
def GITHUB_OWNER : String := "Zie619"

/-- Repository coordinate (src/server.js lines 235-236). -/
def GITHUB_REPO : String := "n8n-workflows"

/-- Cache time-to-live in milliseconds (src/server.js line 232). -/
def CACHE_DURATION : Nat := 5 * 60 * 1000

/-- One entry of a GitHub contents listing, as consumed by the server.
The explorer attaches the originating folder name to the entries it finds
inside subdirectories (`file.folder = folder.name`); entries fresh from the
API carry no folder. -/
structure RawEntry where
  type : String
  name : String
  path : String
  size : Nat
  html_url : String
  download_url : Option String
  folder : Option String
deriving DecidableEq

/-- The parts of an upstream workflow JSON document the server reads:
the nodes array (only its length matters), the keys of the connections
object, and the optional string fields. -/
structure WorkflowDoc where
  nodes : Option (List String)
  connections : Option (List String)
  name : Option String
  description : Option String
  tags : Option (List String)
  createdAt : Option String
  updatedAt : Option String
deriving DecidableEq

/-- The summary record built by the explorer variant (src/server.js lines
402-417). -/
structure WorkflowSummary where
  name : String
  filename : String
  size : Nat
  url : String
  download_url : Option String
  folder : String
  path : String
  workflow : Option WorkflowDoc
  nodes_count : Nat
  connections_count : Nat
  description : String
  tags : List String
  created_at : Option String
  updated_at : Option String
deriving DecidableEq

/-- The auxiliary structure snapshot stored by the explorer
(src/server.js lines 328-338). -/
structure RepoStructure where
  folders : List String
  totalJsonFiles : Nat
  filesByFolder : List (String × Nat)
deriving DecidableEq

/-- The process-wide cache slot of the explorer variant (src/server.js lines
227-231). `struct` embeds the JS field `structure` (a Lean keyword). -/
structure Cache where
  data : Option (List WorkflowSummary)
  timestamp : Nat
  struct : Option RepoStructure
deriving DecidableEq

/-- The cache at process start. -/
def initialCache : Cache :=
  { data := none, timestamp := 0, struct := none }

/-- Outcome of one subdirectory listing request: a JSON array, a non-array
JSON value (the server logs and skips it), or a request failure (the server
catches it and continues with the other folders). -/
inductive FolderOutcome where
  | ok (items : List RawEntry)
  | notArray
  | err
deriving DecidableEq

/-- Root-level JSON file filter of the explorer (src/server.js lines
277-283): files ending in .json whose names do not contain package.json,
tsconfig.json or composer.json. -/
def rootJsonFilter (item : RawEntry) : Bool :=
  item.type == "file" && endsWithStr item.name ".json" &&
  !(strContains item.name "package.json") &&
  !(strContains item.name "tsconfig.json") &&
  !(strContains item.name "composer.json")

/-- Subdirectory JSON file filter of the explorer (src/server.js lines
298-301): files ending in .json, with no name-based exclusions. -/
def folderJsonFilter (item : RawEntry) : Bool :=
  item.type == "file" && endsWithStr item.name ".json"

/-- The JSON files one folder contributes to the candidate list
(src/server.js lines 293-322): on success, the folder's .json files tagged
with the folder name; a failed or non-array folder listing contributes
nothing and does not abort the exploration. -/
def folderContribution (sub : String → FolderOutcome) (folder : RawEntry) :
    List RawEntry :=
  match sub folder.path with
  | FolderOutcome.ok items =>
    let jsonFilesInFolder := items.filter folderJsonFilter
    if jsonFilesInFolder.length > 0 then
      jsonFilesInFolder.map (fun f => { f with folder := some folder.name })
    else []
  | FolderOutcome.notArray => []
  | FolderOutcome.err => []

/-- Body of exploreRepository after the root listing succeeded
(src/server.js lines 276-340): partition the root into folders and root
.json files, append every folder's contribution, and build the structure
snapshot. -/
def exploreContents (rootContents : List RawEntry)
    (sub : String → FolderOutcome) : List RawEntry × RepoStructure :=
  let folders := rootContents.filter (fun item => item.type == "dir")
  let rootJsonFiles := rootContents.filter rootJsonFilter
  let allJsonFiles :=
    folders.foldl (fun acc folder => acc ++ folderContribution sub folder)
      rootJsonFiles
  (allJsonFiles,
   { folders := folders.map (fun f => f.name),
     totalJsonFiles := allJsonFiles.length,
     filesByFolder :=
       folders.foldl (fun acc folder =>
         let n := (allJsonFiles.filter
           (fun f => f.folder == some folder.name)).length
         if n > 0 then acc ++ [(folder.name, n)] else acc)
         [("root", rootJsonFiles.length)] })

/-- exploreRepository (src/server.js lines 267-345): a failed root listing
propagates to the caller; after a successful root listing nothing else can
fail (per-folder errors are swallowed in folderContribution). -/
def exploreRepository (rootResp : Except String (List RawEntry))
    (sub : String → FolderOutcome) :
    Except String (List RawEntry × RepoStructure) :=
  rootResp.map (fun rc => exploreContents rc sub)

/-- One candidate entry turned into a summary by the explorer variant
(src/server.js lines 368-417): derive the display name, carry the listing
metadata over, and leave the content fields at their defaults (no content
fetch happens during a refresh). -/
def processFile (file : RawEntry) : WorkflowSummary :=
  let displayName := deriveDisplayName file.name
  { name := if displayName = "" then replaceFirstStr file.name ".json" ""
            else displayName,
    filename := file.name,
    size := file.size,
    url := file.html_url,
    download_url := file.download_url,
    folder := jsOr file.folder "root",
    path := file.path,
    workflow := none,
    nodes_count := 0,
    connections_count := 0,
    description := "Workflow: " ++ displayName,
    tags := [],
    created_at := none,
    updated_at := none }

/-- Cache freshness condition inlined at src/server.js line 352:
populated and younger than the TTL. -/
def isFresh (c : Cache) (now : Nat) : Prop :=
  c.data.isSome ∧ now - c.timestamp < CACHE_DURATION

instance (c : Cache) (now : Nat) : Decidable (isFresh c now) := by
  unfold isFresh
  infer_instance

/-- fetchWorkflows of the explorer variant (src/server.js lines 348-432).
Returns the list handed to the route, the cache after the call, and the
number of explorer invocations performed (0 on a fresh-cache hit, 1
otherwise). A failed exploration is caught and becomes an empty list with
the cache untouched; an empty candidate list is returned without populating
the cache slot (the structure snapshot is still stored, as exploreRepository
writes it before fetchWorkflows inspects the list). -/
def fetchWorkflows (c : Cache) (now : Nat)
    (rootResp : Except String (List RawEntry))
    (sub : String → FolderOutcome) :
    List WorkflowSummary × Cache × Nat :=
  if isFresh c now then
    (c.data.getD [], c, 0)
  else
    match exploreRepository rootResp sub with
    | Except.error _ => ([], c, 1)
    | Except.ok (jsonFiles, st) =>
      let c1 : Cache := { c with struct := some st }
      if jsonFiles.length = 0 then ([], c1, 1)
      else
        let workflows := jsonFiles.map processFile
        (workflows, { c1 with data := some workflows, timestamp := now }, 1)

/-- Response payload of GET /api/workflows in the explorer variant
(src/server.js lines 438-446). -/
structure ListPayload where
  success : Bool
  count : Nat
  workflows : List WorkflowSummary
  cached : Bool
  cache_age : Nat
  repository : String
  struct : Option RepoStructure
deriving DecidableEq

/-- An HTTP route result: a JSON payload or a 500 with an error message. -/
inductive ApiResult (α : Type) where
  | ok (v : α)
  | serverError (error : String)
deriving DecidableEq

/-- Workflows carried by a listing route result (empty on a 500). -/
def routeWorkflows (r : ApiResult ListPayload) : List WorkflowSummary :=
  match r with
  | ApiResult.ok p => p.workflows
  | ApiResult.serverError _ => []

/-- GET /api/workflows of the explorer variant (src/server.js lines
435-455). The route receives the optional ?q= query parameter but its body
never reads it; since fetchWorkflows is total, the catch branch of the route
is unreachable and the response is always a success payload. -/
def listWorkflowsRoute (c : Cache) (now : Nat)
    (rootResp : Except String (List RawEntry))
    (sub : String → FolderOutcome) (q : Option String) :
    ApiResult ListPayload × Cache :=
  let r := fetchWorkflows c now rootResp sub
  let ws := r.1
  let c1 := r.2.1
  (ApiResult.ok
    { success := true,
      count := ws.length,
      workflows := ws,
      cached := if c1.timestamp ≠ 0 then
                  decide (now - c1.timestamp < CACHE_DURATION)
                else false,
      cache_age := if c1.timestamp ≠ 0 then now - c1.timestamp else 0,
      repository := GITHUB_OWNER ++ "/" ++ GITHUB_REPO,
      struct := c1.struct },
   c1)

/-- Result of GET /api/workflow/:filename. -/
inductive GetResult where
  | ok (workflow : WorkflowSummary)
  | notFound
deriving DecidableEq

/-- In-place enrichment of a found summary after its content was fetched
(src/server.js lines 477-480). -/
def enrichSummary (w : WorkflowSummary) (d : WorkflowDoc) : WorkflowSummary :=
  { w with
    workflow := some d,
    nodes_count := jsCount d.nodes,
    connections_count := jsCount d.connections,
    description := jsOr d.name (jsOr d.description w.description) }

/-- Replace the first element satisfying p, the effect of mutating the
object returned by JS Array.prototype.find inside the array it came from. -/
def updateFirst {α : Type} (p : α → Bool) (f : α → α) : List α → List α
  | [] => []
  | x :: xs => if p x then f x :: xs else x :: updateFirst p f xs

/-- GET /api/workflow/:filename of the explorer variant (src/server.js lines
458-496). Returns the route result, the cache after the call, and the number
of lazy content fetches attempted. The JS handler mutates the found summary
in place; since the found object lives inside the cached array, the update
is modeled by rewriting that array in the cache slot. A failed content fetch
is swallowed and the unmodified summary is returned. -/
def getWorkflowRoute (c : Cache) (now : Nat)
    (rootResp : Except String (List RawEntry))
    (sub : String → FolderOutcome) (filename : String)
    (contentFetch : Option String → Except String WorkflowDoc) :
    GetResult × Cache × Nat :=
  let r := fetchWorkflows c now rootResp sub
  let ws := r.1
  let c1 := r.2.1
  match ws.find? (fun w => w.filename == filename) with
  | none => (GetResult.notFound, c1, 0)
  | some w =>
    match w.workflow with
    | some _ => (GetResult.ok w, c1, 0)
    | none =>
      match contentFetch w.download_url with
      | Except.ok d =>
        (GetResult.ok (enrichSummary w d),
         { c1 with
           data := some (updateFirst (fun x => x.filename == filename)
             (fun x => enrichSummary x d) ws) },
         1)
      | Except.error _ => (GetResult.ok w, c1, 1)

/-- POST /api/clear-cache of the explorer variant (src/server.js lines
568-576): reset all three cache fields. -/
def clearCache (_ : Cache) : Cache :=
  { data := none, timestamp := 0, struct := none }

/-- The summary record built by the simple variant (src/server.js lines
67-80): content is fetched eagerly, so the workflow document is always
present. -/
structure SummaryV1 where
  name : String
  filename : String
  size : Nat
  url : String
  download_url : Option String
  workflow : WorkflowDoc
  nodes_count : Nat
  connections_count : Nat
  description : String
  tags : List String
  created_at : Option String
  updated_at : Option String
deriving DecidableEq

/-- The cache slot of the simple variant (src/server.js lines 17-20). -/
structure CacheV1 where
  data : Option (List SummaryV1)
  timestamp : Nat
deriving DecidableEq

/-- One successfully fetched file turned into a summary by the simple
variant (src/server.js lines 67-80). -/
def processFileV1 (file : RawEntry) (workflow : WorkflowDoc) : SummaryV1 :=
  { name := replaceFirstStr file.name ".json" "",
    filename := file.name,
    size := file.size,
    url := file.html_url,
    download_url := file.download_url,
    workflow := workflow,
    nodes_count := jsCount workflow.nodes,
    connections_count := jsCount workflow.connections,
    description := jsOr workflow.description "",
    tags := workflow.tags.getD [],
    created_at := jsOrNull workflow.createdAt,
    updated_at := jsOrNull workflow.updatedAt }

/-- fetchWorkflows of the simple variant (src/server.js lines 29-100):
filter the root listing down to .json files, fetch every file's content, map
failed fetches to null and filter them out, and rethrow a failed root
listing to the caller. -/
def fetchWorkflowsV1 (c : CacheV1) (now : Nat)
    (rootResp : Except String (List RawEntry))
    (contentFetch : Option String → Except String WorkflowDoc) :
    Except String (List SummaryV1 × CacheV1) :=
  if c.data.isSome ∧ now - c.timestamp < CACHE_DURATION then
    Except.ok (c.data.getD [], c)
  else
    match rootResp with
    | Except.error e => Except.error e
    | Except.ok rootData =>
      let jsonFiles := rootData.filter
        (fun file => endsWithStr file.name ".json" && file.type == "file")
      let workflows := jsonFiles.map (fun file =>
        match contentFetch file.download_url with
        | Except.ok w => some (processFileV1 file w)
        | Except.error _ => none)
      let validWorkflows := workflows.filterMap id
      Except.ok (validWorkflows,
        { data := some validWorkflows, timestamp := now })

/-- Response payload of GET /api/workflows in the simple variant
(src/server.js lines 106-112). -/
structure ListPayloadV1 where
  success : Bool
  count : Nat
  workflows : List SummaryV1
  cached : Bool
  cache_age : Nat
deriving DecidableEq

/-- GET /api/workflows of the simple variant (src/server.js lines 103-119):
an error thrown by fetchWorkflows is caught by the route and answered with
an HTTP 500 error body. -/
def listWorkflowsRouteV1 (c : CacheV1) (now : Nat)
    (rootResp : Except String (List RawEntry))
    (contentFetch : Option String → Except String WorkflowDoc) :
    ApiResult ListPayloadV1 × CacheV1 :=
  match fetchWorkflowsV1 c now rootResp contentFetch with
  | Except.ok (ws, c1) =>
    (ApiResult.ok
      { success := true,
        count := ws.length,
        workflows := ws,
        cached := decide (now - c1.timestamp < CACHE_DURATION),
        cache_age := now - c1.timestamp },
     c1)
  | Except.error e => (ApiResult.serverError e, c)

/-- Modelled from the spec: the complexity inference rule of the Item
Normalizer (node count at most 5 gives Low, at most 15 gives Medium,
otherwise High). Neither server variant under src/ computes a complexity
field, so this definition follows the spec text of section 4.3. -/
def inferComplexity (nodeCount : Nat) : String :=
  if nodeCount ≤ 5 then "Low"
  else if nodeCount ≤ 15 then "Medium"
  else "High"

/-- The case-insensitive substring match stated by the spec for the ?q=
filter of the listing endpoint, used to compare the specified filtering
behavior with the implemented route. -/
def specContainsCI (s q : String) : Bool :=
  strContains (toLowerStr s) (toLowerStr q)

/-- Concrete root entry used to evaluate the name pipeline on a summary. -/
def c3Entry1 : RawEntry :=
  { type := "file", name := "0007_Send_HTTP_Request.json",
    path := "0007_Send_HTTP_Request.json", size := 10,
    html_url := "https://example.com/h1",
    download_url := some "https://example.com/d1", folder := none }

/-- Concrete root entry used to evaluate the name pipeline on a summary. -/
def c3Entry2 : RawEntry :=
  { type := "file", name := "linkedin_post_scheduler.json",
    path := "linkedin_post_scheduler.json", size := 11,
    html_url := "https://example.com/h2",
    download_url := some "https://example.com/d2", folder := none }

/-- Concrete candidate file whose eager content fetch succeeds. -/
def c2FileA : RawEntry :=
  { type := "file", name := "a.json", path := "a.json", size := 1,
    html_url := "ha", download_url := some "ua", folder := none }

/-- Concrete candidate file whose eager content fetch fails. -/
def c2FileB : RawEntry :=
  { type := "file", name := "b.json", path := "b.json", size := 2,
    html_url := "hb", download_url := some "ub", folder := none }

/-- Concrete workflow document returned for the successful fetch. -/
def c2Doc : WorkflowDoc :=
  { nodes := some ["n1"], connections := some ["c1"], name := some "Doc A",
    description := some "a doc", tags := some [], createdAt := none,
    updatedAt := none }

/-- Content fetcher that succeeds only for the first file's URL. -/
def c2Fetch (u : Option String) : Except String WorkflowDoc :=
  if u = some "ua" then Except.ok c2Doc else Except.error "fetch failed"

/-- Concrete one-file root listing for refresh witnesses. -/
def c2RootW : List RawEntry := [c2FileA]

/-- Folder lister that always fails (the witness root has no folders). -/
def c2SubW : String → FolderOutcome := fun _ => FolderOutcome.err

/-- Concrete summary sitting in a fresh cache for the filter counterexample. -/
def c5Summary : WorkflowSummary :=
  { name := "Alpha", filename := "alpha.json", size := 1, url := "u",
    download_url := some "d", folder := "root", path := "alpha.json",
    workflow := none, nodes_count := 0, connections_count := 0,
    description := "Workflow: Alpha", tags := [], created_at := none,
    updated_at := none }

/-- Fresh cache holding only c5Summary. -/
def c5Cache : Cache :=
  { data := some [c5Summary], timestamp := 100, struct := none }

/-- Concrete summary without content, target of the lazy-fetch witness. -/
def c7Summary : WorkflowSummary :=
  { name := "A", filename := "a.json", size := 3, url := "hu",
    download_url := some "du", folder := "root", path := "a.json",
    workflow := none, nodes_count := 0, connections_count := 0,
    description := "Workflow: A", tags := [], created_at := none,
    updated_at := none }

/-- Fresh cache holding only c7Summary. -/
def c7Cache : Cache :=
  { data := some [c7Summary], timestamp := 50, struct := none }

/-- Concrete document produced by the lazy fetch in the witness. -/
def c7Doc : WorkflowDoc :=
  { nodes := some ["n1", "n2"], connections := some ["Start"],
    name := some "Real name", description := none, tags := none,
    createdAt := none, updatedAt := none }

/-- Content fetcher of the lazy-fetch witness (always succeeds). -/
def c7Fetch : Option String → Except String WorkflowDoc :=
  fun _ => Except.ok c7Doc

/-- Concrete subdirectory entry for the exploration witness. -/
def c10Dir : RawEntry :=
  { type := "dir", name := "workflows", path := "workflows", size := 0,
    html_url := "hd", download_url := none, folder := none }

/-- A package.json file living inside the subdirectory. -/
def c10Pkg : RawEntry :=
  { type := "file", name := "package.json", path := "workflows/package.json",
    size := 5, html_url := "hp", download_url := some "dp", folder := none }

/-- Folder lister of the exploration witness: the workflows folder holds
exactly the package.json file. -/
def c10Sub : String → FolderOutcome :=
  fun p => if p = "workflows" then FolderOutcome.ok [c10Pkg]
           else FolderOutcome.err




/-! ## Helper lemmas -/

/-- On a populated, still-fresh cache, fetchWorkflows serves the cached list
and performs no exploration. -/
theorem fetchWorkflows_fresh (c : Cache) (now : Nat)
    (rootResp : Except String (List RawEntry)) (sub : String → FolderOutcome)
    (ws : List WorkflowSummary)
    (hdata : c.data = some ws)
    (hlt : now - c.timestamp < CACHE_DURATION) :
    fetchWorkflows c now rootResp sub = (ws, c, 0) := by
  have hf : isFresh c now := ⟨by simp [hdata], hlt⟩
  simp [fetchWorkflows, if_pos hf, hdata]

/-- On a stale cache, a failed root listing is swallowed: the result is the
empty list and the cache is left untouched. -/
theorem fetchWorkflows_stale_err (c : Cache) (now : Nat) (e : String)
    (sub : String → FolderOutcome) (hnf : ¬ isFresh c now) :
    fetchWorkflows c now (Except.error e) sub = ([], c, 1) := by
  simp [fetchWorkflows, if_neg hnf, exploreRepository, Except.map]

/-- On a stale cache with a successful, non-empty exploration, the refresh
maps every candidate through processFile and repopulates the cache. -/
theorem fetchWorkflows_stale_ok (c : Cache) (now : Nat)
    (rootResp : Except String (List RawEntry)) (sub : String → FolderOutcome)
    (files : List RawEntry) (st : RepoStructure)
    (hnf : ¬ isFresh c now)
    (hex : exploreRepository rootResp sub = Except.ok (files, st))
    (hne : files ≠ []) :
    fetchWorkflows c now rootResp sub =
      (files.map processFile,
       { data := some (files.map processFile), timestamp := now,
         struct := some st }, 1) := by
  have hlen : ¬ files.length = 0 := by
    simpa [List.length_eq_zero] using hne
  simp only [fetchWorkflows, if_neg hnf, hex]
  simp [if_neg hlen]
  intro h
  exact absurd h hne

/-- A stale fetch always explores exactly once, whatever the outcome. -/
theorem fetchWorkflows_stale_count (c : Cache) (now : Nat)
    (rootResp : Except String (List RawEntry)) (sub : String → FolderOutcome)
    (hnf : ¬ isFresh c now) :
    (fetchWorkflows c now rootResp sub).2.2 = 1 := by
  rcases h : exploreRepository rootResp sub with e | pr
  · simp [fetchWorkflows, if_neg hnf, h]
  · rcases pr with ⟨files, st⟩
    by_cases hlen : files.length = 0
    · simp [fetchWorkflows, if_neg hnf, h, hlen]
    · simp [fetchWorkflows, if_neg hnf, h, hlen]

/-- find? returns the element at the first matching index. -/
theorem find_eq_of_first {α : Type} (p : α → Bool) :
    ∀ (l : List α) (i : Nat) (hi : i < l.length),
      p (l.get ⟨i, hi⟩) = true →
      (∀ j (hj : j < i), p (l.get ⟨j, Nat.lt_trans hj hi⟩) = false) →
      l.find? p = some (l.get ⟨i, hi⟩)
  | [], i, hi, _, _ => absurd hi (by simp)
  | a :: l, 0, _, hp, _ => by
      simp only [List.get] at hp
      simp [List.find?, hp]
  | a :: l, i + 1, hi, hp, hfirst => by
      have h0 : p a = false := by
        have h := hfirst 0 (Nat.succ_pos i)
        simpa using h
      have hi' : i < l.length := Nat.lt_of_succ_lt_succ hi
      have ih := find_eq_of_first p l i hi'
        (by simpa using hp)
        (fun j hj => by simpa using hfirst (j + 1) (Nat.succ_lt_succ hj))
      simp [List.find?, h0, ih]

/-- updateFirst rewrites exactly the first matching index. -/
theorem updateFirst_eq_set {α : Type} (p : α → Bool) (f : α → α) :
    ∀ (l : List α) (i : Nat) (hi : i < l.length),
      p (l.get ⟨i, hi⟩) = true →
      (∀ j (hj : j < i), p (l.get ⟨j, Nat.lt_trans hj hi⟩) = false) →
      updateFirst p f l = l.set i (f (l.get ⟨i, hi⟩))
  | [], i, hi, _, _ => absurd hi (by simp)
  | a :: l, 0, _, hp, _ => by
      simp only [List.get] at hp
      simp [updateFirst, hp]
  | a :: l, i + 1, hi, hp, hfirst => by
      have h0 : p a = false := by
        have h := hfirst 0 (Nat.succ_pos i)
        simpa using h
      have hi' : i < l.length := Nat.lt_of_succ_lt_succ hi
      have ih := updateFirst_eq_set p f l i hi'
        (by simpa using hp)
        (fun j hj => by simpa using hfirst (j + 1) (Nat.succ_lt_succ hj))
      simp [updateFirst, h0, ih]

/-- Setting index i leaves every other optional lookup unchanged. -/
theorem set_get_ne {α : Type} :
    ∀ (l : List α) (i j : Nat) (a : α), i ≠ j →
      (l.set i a)[j]? = l[j]?
  | [], _, _, _, _ => by simp
  | _ :: _, 0, 0, _, h => absurd rfl h
  | x :: xs, 0, j + 1, a, _ => by simp [List.set]
  | x :: xs, i + 1, 0, a, _ => by simp [List.set]
  | x :: xs, i + 1, j + 1, a, h => by
      have ih := set_get_ne xs i j a (fun e => h (by rw [e]))
      simp [List.set, ih]

/-- Setting index i puts the new value at index i. -/
theorem set_get_self {α : Type} :
    ∀ (l : List α) (i : Nat) (a : α) (h : i < (l.set i a).length),
      (l.set i a).get ⟨i, h⟩ = a
  | [], i, a, h => absurd h (by simp)
  | _ :: _, 0, _, _ => rfl
  | x :: xs, i + 1, a, h => set_get_self xs i a (by simpa using h)

/-- Positional reading of set at a different index. -/
theorem set_get_other {α : Type} :
    ∀ (l : List α) (i j : Nat) (a : α) (h1 : j < (l.set i a).length)
      (h2 : j < l.length), i ≠ j →
      (l.set i a).get ⟨j, h1⟩ = l.get ⟨j, h2⟩
  | [], _, _, _, h1, _, _ => absurd h1 (by simp)
  | _ :: _, 0, 0, _, _, _, hne => absurd rfl hne
  | x :: xs, 0, j + 1, a, _, _, _ => rfl
  | x :: xs, i + 1, 0, a, _, _, _ => rfl
  | x :: xs, i + 1, j + 1, a, h1, h2, hne =>
      set_get_other xs i j a (by simpa using h1) (by simpa using h2)
        (fun e => hne (congrArg Nat.succ e))

/-- Folding append of per-element contributions is the initial list followed
by the joined contributions. -/
theorem foldl_append_eq {α β : Type} (g : α → List β) :
    ∀ (l : List α) (init : List β),
      l.foldl (fun acc a => acc ++ g a) init = init ++ (l.map g).flatten
  | [], init => by simp
  | a :: l, init => by
      simp [foldl_append_eq g l (init ++ g a), List.append_assoc]

/-! ## Claim theorems -/

/-- C3: the name-derivation pipeline maps "0007_Send_HTTP_Request.json" to
"Send HTTP Request" and "linkedin_post_scheduler.json" to
"LinkedIn Post Scheduler", both as the raw pipeline output and as the name
field of the produced summary. -/
theorem c3_name_derivation :
    deriveDisplayName "0007_Send_HTTP_Request.json" = "Send HTTP Request" ∧
    deriveDisplayName "linkedin_post_scheduler.json" =
      "LinkedIn Post Scheduler" ∧
    (processFile c3Entry1).name = "Send HTTP Request" ∧
    (processFile c3Entry2).name = "LinkedIn Post Scheduler" := by
  refine ⟨by decide, by decide, by decide, by decide⟩

/-- C4 counterexample: the normalizer has no special case for "openai"; the
default capitalization emits "Openai", not the "OpenAI" the claim states,
both token-wise and inside a derived name. -/
theorem c4_openai_counterexample :
    transformWord "openai" = "Openai" ∧
    transformWord "openai" ≠ "OpenAI" ∧
    deriveDisplayName "openai_chat.json" = "Openai Chat" := by
  refine ⟨by decide, by decide, by decide⟩

/-- C4 amended: the brand special cases of the normalizer cover exactly
github, gitlab, linkedin, youtube, facebook, instagram, whatsapp and n8n
(matched on the lowercase form, so mixed-case tokens map too); telegram,
discord, slack and anthropic have no special case but the default
capitalization happens to produce the claimed forms; openai also has no
special case and is emitted as "Openai" rather than "OpenAI". -/
theorem c4_brand_capitalization :
    transformWord "github" = "GitHub" ∧
    transformWord "gitlab" = "GitLab" ∧
    transformWord "linkedin" = "LinkedIn" ∧
    transformWord "youtube" = "YouTube" ∧
    transformWord "facebook" = "Facebook" ∧
    transformWord "instagram" = "Instagram" ∧
    transformWord "whatsapp" = "WhatsApp" ∧
    transformWord "n8n" = "n8n" ∧
    transformWord "GitHub" = "GitHub" ∧
    transformWord "LINKEDIN" = "LinkedIn" ∧
    transformWord "N8N" = "n8n" ∧
    transformWord "telegram" = "Telegram" ∧
    transformWord "discord" = "Discord" ∧
    transformWord "slack" = "Slack" ∧
    transformWord "anthropic" = "Anthropic" ∧
    transformWord "openai" = "Openai" := by
  repeat constructor

/-- C9: complexity inference (modelled from the spec, absent from src):
node counts of at most 5 give Low, of at most 15 give Medium, larger counts
give High; the five sample counts map as the spec states. -/
theorem c9_complexity_inference :
    (∀ n : Nat,
      (n ≤ 5 → inferComplexity n = "Low") ∧
      (5 < n → n ≤ 15 → inferComplexity n = "Medium") ∧
      (15 < n → inferComplexity n = "High")) ∧
    inferComplexity 0 = "Low" ∧
    inferComplexity 5 = "Low" ∧
    inferComplexity 6 = "Medium" ∧
    inferComplexity 15 = "Medium" ∧
    inferComplexity 16 = "High" := by
  refine ⟨?_, by decide, by decide, by decide, by decide, by decide⟩
  intro n
  refine ⟨fun h => ?_, fun h1 h2 => ?_, fun h => ?_⟩
  · simp [inferComplexity, h]
  · have : ¬ n ≤ 5 := by omega
    simp [inferComplexity, this, h2]
  · have h5 : ¬ n ≤ 5 := by omega
    have h15 : ¬ n ≤ 15 := by omega
    simp [inferComplexity, h5, h15]

/-- C9 witness: the general rule applied at node count 16. -/
theorem c9_complexity_inference_witness :
    15 < 16 ∧ inferComplexity 16 = "High" :=
  ⟨by decide, (c9_complexity_inference.1 16).2.2 (by decide)⟩

/-- C8: clearCache resets the slot to the initial empty state, is
idempotent, and a listWorkflows right after a clear always performs exactly
one fresh explorer invocation instead of serving cached data. -/
theorem c8_clear_cache :
    (∀ c : Cache, clearCache c = initialCache) ∧
    (∀ c : Cache, clearCache (clearCache c) = clearCache c) ∧
    (∀ (c : Cache) (now : Nat) (rootResp : Except String (List RawEntry))
       (sub : String → FolderOutcome),
       (fetchWorkflows (clearCache c) now rootResp sub).2.2 = 1) := by
  refine ⟨fun c => rfl, fun c => rfl, fun c now rootResp sub => ?_⟩
  have hnf : ¬ isFresh (clearCache c) now := by
    intro h
    simpa [clearCache, isFresh] using h.1
  exact fetchWorkflows_stale_count (clearCache c) now rootResp sub hnf

/-- C6: freshness is exactly populated-and-younger-than-TTL with a TTL of
300000 ms; after a refresh populates the cache, any listWorkflows within the
TTL serves the cached list with no explorer invocation, and once the age
reaches the TTL the next listWorkflows explores again. -/
theorem c6_cache_freshness (c : Cache) (now : Nat)
    (rootResp : Except String (List RawEntry)) (sub : String → FolderOutcome)
    (files : List RawEntry) (st : RepoStructure)
    (hnf : ¬ isFresh c now)
    (hex : exploreRepository rootResp sub = Except.ok (files, st))
    (hne : files ≠ []) :
    CACHE_DURATION = 300000 ∧
    (∀ (c2 : Cache) (now2 : Nat),
      isFresh c2 now2 ↔ c2.data.isSome ∧ now2 - c2.timestamp < CACHE_DURATION) ∧
    fetchWorkflows c now rootResp sub =
      (files.map processFile,
       { data := some (files.map processFile), timestamp := now,
         struct := some st }, 1) ∧
    (∀ (now2 : Nat) (r2 : Except String (List RawEntry))
       (s2 : String → FolderOutcome), now2 - now < CACHE_DURATION →
      fetchWorkflows
        { data := some (files.map processFile), timestamp := now,
          struct := some st } now2 r2 s2 =
        (files.map processFile,
         { data := some (files.map processFile), timestamp := now,
           struct := some st }, 0)) ∧
    (∀ (now3 : Nat) (r3 : Except String (List RawEntry))
       (s3 : String → FolderOutcome), CACHE_DURATION ≤ now3 - now →
      (fetchWorkflows
        { data := some (files.map processFile), timestamp := now,
          struct := some st } now3 r3 s3).2.2 = 1) := by
  refine ⟨rfl, fun c2 now2 => Iff.rfl,
    fetchWorkflows_stale_ok c now rootResp sub files st hnf hex hne,
    fun now2 r2 s2 h2 => ?_, fun now3 r3 s3 h3 => ?_⟩
  · exact fetchWorkflows_fresh _ now2 r2 s2 (files.map processFile) rfl h2
  · refine fetchWorkflows_stale_count _ now3 r3 s3 ?_
    intro h
    exact absurd h.2 (by simpa using h3)

/-- C6 witness: a refresh of the empty cache at time 0 over a one-file root
listing, checked through the general freshness theorem. -/
theorem c6_cache_freshness_witness :
    fetchWorkflows initialCache 0 (Except.ok c2RootW) c2SubW =
      ((exploreContents c2RootW c2SubW).1.map processFile,
       { data := some ((exploreContents c2RootW c2SubW).1.map processFile),
         timestamp := 0,
         struct := some (exploreContents c2RootW c2SubW).2 }, 1) :=
  (c6_cache_freshness initialCache 0 (Except.ok c2RootW) c2SubW
    (exploreContents c2RootW c2SubW).1 (exploreContents c2RootW c2SubW).2
    (by decide) rfl (by decide)).2.2.1

/-- C2 amended: the exploration-based refresh performs no per-file content
fetch and turns every candidate entry into exactly one summary, so the
produced snapshot has exactly one summary per candidate; (the simple
variant instead drops candidates whose eager content fetch fails, see the
counterexample). -/
theorem c2_refresh_keeps_all_candidates (c : Cache) (now : Nat)
    (rootResp : Except String (List RawEntry)) (sub : String → FolderOutcome)
    (files : List RawEntry) (st : RepoStructure)
    (hnf : ¬ isFresh c now)
    (hex : exploreRepository rootResp sub = Except.ok (files, st))
    (hne : files ≠ []) :
    (fetchWorkflows c now rootResp sub).1 = files.map processFile ∧
    (fetchWorkflows c now rootResp sub).1.length = files.length := by
  have h := fetchWorkflows_stale_ok c now rootResp sub files st hnf hex hne
  rw [h]
  exact ⟨rfl, List.length_map files processFile⟩

/-- C2 witness: the refresh over a concrete one-file root listing yields as
many summaries as candidates. -/
theorem c2_refresh_keeps_all_candidates_witness :
    (fetchWorkflows initialCache 0 (Except.ok c2RootW) c2SubW).1.length =
      (exploreContents c2RootW c2SubW).1.length :=
  (c2_refresh_keeps_all_candidates initialCache 0 (Except.ok c2RootW) c2SubW
    (exploreContents c2RootW c2SubW).1 (exploreContents c2RootW c2SubW).2
    (by decide) rfl (by decide)).2

/-- C2 counterexample: the simple variant's refresh considers two candidate
.json entries, the content fetch for the second fails, and the resulting
snapshot holds one summary instead of two — the failed candidate is dropped,
not kept as a degraded summary. -/
theorem c2_v1_drops_failed_fetch :
    (fetchWorkflowsV1 { data := none, timestamp := 0 } 0
        (Except.ok [c2FileA, c2FileB]) c2Fetch).toOption.map
        (fun r => r.1.length) = some 1 ∧
    ([c2FileA, c2FileB].filter
      (fun file => endsWithStr file.name ".json" && file.type == "file")).length
      = 2 := by
  refine ⟨by decide, by decide⟩

/-- C1 amended: in the explorer variant, fetchWorkflows catches every
upstream failure, so GET /api/workflows always answers with a success
payload, and a failed top-level exploration during a refresh degrades to an
empty listing; (in the simple variant the same failure propagates as an
HTTP 500, see the counterexample). -/
theorem c1_listing_never_hard_fails :
    (∀ (c : Cache) (now : Nat) (rootResp : Except String (List RawEntry))
       (sub : String → FolderOutcome) (q : Option String),
      ∃ p c1, listWorkflowsRoute c now rootResp sub q = (ApiResult.ok p, c1)) ∧
    (∀ (c : Cache) (now : Nat) (sub : String → FolderOutcome)
       (q : Option String) (e : String), ¬ isFresh c now →
      ∃ p, (listWorkflowsRoute c now (Except.error e) sub q).1 =
          ApiResult.ok p ∧ p.workflows = [] ∧ p.count = 0) := by
  constructor
  · intro c now rootResp sub q
    exact ⟨_, _, rfl⟩
  · intro c now sub q e hnf
    have h := fetchWorkflows_stale_err c now e sub hnf
    refine ⟨{ success := true, count := 0, workflows := [],
              cached := if c.timestamp ≠ 0 then
                          decide (now - c.timestamp < CACHE_DURATION)
                        else false,
              cache_age := if c.timestamp ≠ 0 then now - c.timestamp else 0,
              repository := GITHUB_OWNER ++ "/" ++ GITHUB_REPO,
              struct := c.struct }, ?_, rfl, rfl⟩
    simp [listWorkflowsRoute, h]

/-- C1 witness: a refresh attempt from the empty cache with a failing root
listing still answers with a success payload carrying an empty listing. -/
theorem c1_listing_never_hard_fails_witness :
    ¬ isFresh initialCache 0 ∧
    ∃ p, (listWorkflowsRoute initialCache 0 (Except.error "boom") c2SubW
        none).1 = ApiResult.ok p ∧ p.workflows = [] ∧ p.count = 0 :=
  ⟨by decide,
   c1_listing_never_hard_fails.2 initialCache 0 c2SubW none "boom" (by decide)⟩

/-- C1 counterexample: in the simple variant a failed top-level contents
fetch is rethrown by fetchWorkflows and GET /api/workflows answers with an
HTTP 500 error body — the error does propagate to the caller. -/
theorem c1_v1_propagates_counterexample :
    listWorkflowsRouteV1 { data := none, timestamp := 0 } 0
        (Except.error "GitHub API failure") (fun _ => Except.error "x") =
      (ApiResult.serverError "GitHub API failure",
       { data := none, timestamp := 0 }) := by
  decide

/-- C5 amended: the listing route never reads the ?q= parameter: the
response is identical for any two query values and the returned workflows
are always the full list produced by fetchWorkflows, with no substring
filtering applied. -/
theorem c5_q_parameter_ignored (c : Cache) (now : Nat)
    (rootResp : Except String (List RawEntry)) (sub : String → FolderOutcome)
    (q q2 : Option String) :
    listWorkflowsRoute c now rootResp sub q =
      listWorkflowsRoute c now rootResp sub q2 ∧
    routeWorkflows (listWorkflowsRoute c now rootResp sub q).1 =
      (fetchWorkflows c now rootResp sub).1 :=
  ⟨rfl, rfl⟩

/-- C5 counterexample: with a fresh cache holding one summary and the query
string "zzz", which occurs case-insensitively in none of the summary's
fields, the route still returns that summary — so the returned workflows are
not exactly those matching the query. -/
theorem c5_no_filtering_counterexample :
    routeWorkflows (listWorkflowsRoute c5Cache 100 (Except.ok [])
        (fun _ => FolderOutcome.err) (some "zzz")).1 = [c5Summary] ∧
    specContainsCI c5Summary.name "zzz" = false ∧
    specContainsCI c5Summary.description "zzz" = false ∧
    specContainsCI c5Summary.folder "zzz" = false := by
  refine ⟨by decide, by decide, by decide, by decide⟩

/-- C7: on a fresh cache whose entry at the first index matching the
requested filename has no workflow content but does have a download URL, and
whose content fetch succeeds, GET /api/workflow/:filename performs exactly
one lazy fetch, updates exactly the workflow, nodes_count,
connections_count and description fields of that stored summary in place,
leaves every other field, every other summary and the cache timestamp and
structure unchanged, and a second lookup of the same filename within the
same cache window performs no further fetch. -/
theorem c7_lazy_fetch_once (c : Cache) (now : Nat)
    (rootResp : Except String (List RawEntry)) (sub : String → FolderOutcome)
    (ws : List WorkflowSummary) (i : Nat) (filename u : String)
    (d : WorkflowDoc)
    (contentFetch : Option String → Except String WorkflowDoc)
    (hdata : c.data = some ws)
    (hfresh : now - c.timestamp < CACHE_DURATION)
    (hi : i < ws.length)
    (hmatch : (ws.get ⟨i, hi⟩).filename = filename)
    (hfirst : ∀ j (hj : j < i),
      (ws.get ⟨j, Nat.lt_trans hj hi⟩).filename ≠ filename)
    (hwf : (ws.get ⟨i, hi⟩).workflow = none)
    (hurl : (ws.get ⟨i, hi⟩).download_url = some u)
    (hfetch : contentFetch (some u) = Except.ok d) :
    getWorkflowRoute c now rootResp sub filename contentFetch =
      (GetResult.ok (enrichSummary (ws.get ⟨i, hi⟩) d),
       { c with
         data := some (ws.set i (enrichSummary (ws.get ⟨i, hi⟩) d)) }, 1) ∧
    ((enrichSummary (ws.get ⟨i, hi⟩) d).name = (ws.get ⟨i, hi⟩).name ∧
     (enrichSummary (ws.get ⟨i, hi⟩) d).filename = (ws.get ⟨i, hi⟩).filename ∧
     (enrichSummary (ws.get ⟨i, hi⟩) d).size = (ws.get ⟨i, hi⟩).size ∧
     (enrichSummary (ws.get ⟨i, hi⟩) d).url = (ws.get ⟨i, hi⟩).url ∧
     (enrichSummary (ws.get ⟨i, hi⟩) d).download_url =
       (ws.get ⟨i, hi⟩).download_url ∧
     (enrichSummary (ws.get ⟨i, hi⟩) d).folder = (ws.get ⟨i, hi⟩).folder ∧
     (enrichSummary (ws.get ⟨i, hi⟩) d).path = (ws.get ⟨i, hi⟩).path ∧
     (enrichSummary (ws.get ⟨i, hi⟩) d).tags = (ws.get ⟨i, hi⟩).tags ∧
     (enrichSummary (ws.get ⟨i, hi⟩) d).created_at =
       (ws.get ⟨i, hi⟩).created_at ∧
     (enrichSummary (ws.get ⟨i, hi⟩) d).updated_at =
       (ws.get ⟨i, hi⟩).updated_at) ∧
    ((enrichSummary (ws.get ⟨i, hi⟩) d).workflow = some d ∧
     (enrichSummary (ws.get ⟨i, hi⟩) d).nodes_count = jsCount d.nodes ∧
     (enrichSummary (ws.get ⟨i, hi⟩) d).connections_count =
       jsCount d.connections ∧
     (enrichSummary (ws.get ⟨i, hi⟩) d).description =
       jsOr d.name (jsOr d.description (ws.get ⟨i, hi⟩).description)) ∧
    (∀ j, j ≠ i →
      (ws.set i (enrichSummary (ws.get ⟨i, hi⟩) d))[j]? = ws[j]?) ∧
    (∀ (now2 : Nat) (r2 : Except String (List RawEntry))
       (s2 : String → FolderOutcome)
       (cf2 : Option String → Except String WorkflowDoc),
      now2 - c.timestamp < CACHE_DURATION →
      (getWorkflowRoute
        { c with
          data := some (ws.set i (enrichSummary (ws.get ⟨i, hi⟩) d)) }
        now2 r2 s2 filename cf2).2.2 = 0) := by
  have hfw := fetchWorkflows_fresh c now rootResp sub ws hdata hfresh
  have hp : (fun w => w.filename == filename) (ws.get ⟨i, hi⟩) = true := by
    show ((ws.get ⟨i, hi⟩).filename == filename) = true
    exact beq_iff_eq.mpr hmatch
  have hpf : ∀ j (hj : j < i),
      (fun w => w.filename == filename) (ws.get ⟨j, Nat.lt_trans hj hi⟩)
        = false := by
    intro j hj
    show ((ws.get ⟨j, Nat.lt_trans hj hi⟩).filename == filename) = false
    exact beq_eq_false_iff_ne.mpr (hfirst j hj)
  have hfind := find_eq_of_first (fun w => w.filename == filename) ws i hi hp hpf
  have hupd := updateFirst_eq_set (fun w => w.filename == filename)
    (fun x => enrichSummary x d) ws i hi hp hpf
  refine ⟨?_, ⟨rfl, rfl, rfl, rfl, rfl, rfl, rfl, rfl, rfl, rfl⟩,
    ⟨rfl, rfl, rfl, rfl⟩, ?_, ?_⟩
  · simp only [getWorkflowRoute, hfw, hfind, hwf, hurl, hfetch, hupd]
  · intro j hj
    exact set_get_ne ws i j _ (Ne.symm hj)
  · intro now2 r2 s2 cf2 hf2
    have hfw2 := fetchWorkflows_fresh
      { c with data := some (ws.set i (enrichSummary (ws.get ⟨i, hi⟩) d)) }
      now2 r2 s2 (ws.set i (enrichSummary (ws.get ⟨i, hi⟩) d)) rfl hf2
    have hi2 : i < (ws.set i (enrichSummary (ws.get ⟨i, hi⟩) d)).length := by
      simpa using hi
    have hp2 : (fun w => w.filename == filename)
        ((ws.set i (enrichSummary (ws.get ⟨i, hi⟩) d)).get ⟨i, hi2⟩)
          = true := by
      show (((ws.set i (enrichSummary (ws.get ⟨i, hi⟩) d)).get
        ⟨i, hi2⟩).filename == filename) = true
      rw [set_get_self ws i _ hi2]
      exact beq_iff_eq.mpr hmatch
    have hpf2 : ∀ j (hj : j < i),
        (fun w => w.filename == filename)
          ((ws.set i (enrichSummary (ws.get ⟨i, hi⟩) d)).get
            ⟨j, Nat.lt_trans hj hi2⟩) = false := by
      intro j hj
      show (((ws.set i (enrichSummary (ws.get ⟨i, hi⟩) d)).get
        ⟨j, Nat.lt_trans hj hi2⟩).filename == filename) = false
      rw [set_get_other ws i j _ (Nat.lt_trans hj hi2) (Nat.lt_trans hj hi)
        (Ne.symm (Nat.ne_of_lt hj))]
      exact beq_eq_false_iff_ne.mpr (hfirst j hj)
    have hfind2 := find_eq_of_first (fun w => w.filename == filename)
      (ws.set i (enrichSummary (ws.get ⟨i, hi⟩) d)) i hi2 hp2 hpf2
    have hget2 := set_get_self ws i (enrichSummary (ws.get ⟨i, hi⟩) d) hi2
    simp only [getWorkflowRoute, hfw2, hfind2]
    rw [hget2]
    simp [enrichSummary]

/-- C7 witness: the lazy-fetch behavior exercised on a one-summary fresh
cache whose content fetch succeeds. -/
theorem c7_lazy_fetch_once_witness :
    getWorkflowRoute c7Cache 50 (Except.ok []) c2SubW "a.json" c7Fetch =
      (GetResult.ok (enrichSummary c7Summary c7Doc),
       { c7Cache with
         data := some ([c7Summary].set 0 (enrichSummary c7Summary c7Doc)) },
       1) :=
  (c7_lazy_fetch_once c7Cache 50 (Except.ok []) c2SubW [c7Summary] 0
    "a.json" "du" c7Doc c7Fetch rfl (by decide) (by decide) rfl
    (fun j hj => absurd hj (Nat.not_lt_zero j)) rfl rfl rfl).1

/-- C10: the package.json / tsconfig.json / composer.json name exclusions
apply only to the root listing: every file of a subdirectory listing whose
name ends in .json — such files included — lands in the candidate list
(tagged with its folder), the root filter rejects any entry whose name
contains one of the three excluded names, and the subdirectory filter
accepts every .json file. -/
theorem c10_subdir_no_exclusions :
    (∀ (rootContents : List RawEntry) (sub : String → FolderOutcome)
       (f : RawEntry) (items : List RawEntry) (e : RawEntry),
      f ∈ rootContents → f.type = "dir" →
      sub f.path = FolderOutcome.ok items →
      e ∈ items → e.type = "file" → endsWithStr e.name ".json" = true →
      { e with folder := some f.name } ∈ (exploreContents rootContents sub).1) ∧
    (∀ e : RawEntry,
      strContains e.name "package.json" = true ∨
      strContains e.name "tsconfig.json" = true ∨
      strContains e.name "composer.json" = true →
      rootJsonFilter e = false) ∧
    (∀ e : RawEntry, e.type = "file" → endsWithStr e.name ".json" = true →
      folderJsonFilter e = true) := by
  refine ⟨?_, ?_, ?_⟩
  · intro rootContents sub f items e hf hdir hsub he hety hejson
    have hfmem : f ∈ rootContents.filter (fun item => item.type == "dir") := by
      rw [List.mem_filter]
      exact ⟨hf, by simp [hdir]⟩
    have hejs : e ∈ items.filter folderJsonFilter := by
      rw [List.mem_filter]
      exact ⟨he, by simp [folderJsonFilter, hety, hejson]⟩
    have hcontrib : { e with folder := some f.name } ∈
        folderContribution sub f := by
      unfold folderContribution
      rw [hsub]
      have hpos : (items.filter folderJsonFilter).length > 0 :=
        List.length_pos.mpr (List.ne_nil_of_mem hejs)
      simp only [if_pos hpos]
      exact List.mem_map_of_mem _ hejs
    simp only [exploreContents, foldl_append_eq, List.mem_append,
      List.mem_flatten]
    right
    exact ⟨folderContribution sub f, List.mem_map_of_mem _ hfmem, hcontrib⟩
  · intro e h
    rcases h with h | h | h <;> simp [rootJsonFilter, h]
  · intro e hety hejson
    simp [folderJsonFilter, hety, hejson]

/-- C10 witness: a package.json file inside the workflows folder of a
concrete repository listing is part of the candidate list. -/
theorem c10_subdir_no_exclusions_witness :
    { c10Pkg with folder := some "workflows" } ∈
      (exploreContents [c10Dir] c10Sub).1 :=
  c10_subdir_no_exclusions.1 [c10Dir] c10Sub c10Dir [c10Pkg] c10Pkg
    (by decide) rfl (by decide) (by decide) rfl (by decide)
